import Mathlib

/-!
Verification of the DLHub SDK client layer: a shallow embedding of
`dlhub_sdk/client.py` and `dlhub_sdk/utils/futures.py` (plus the
metadata-model behaviour exercised by
`dlhub_sdk/models/servables/tests/test_python.py`), with theorems about the
behaviour of `get_servables`, `describe_servable`, `run`, `publish_servable`,
`search_by_servable`, the `DLHubFuture` checker thread, and the
static-method description model.

Remote interactions (the Globus search index, the DLHub HTTP service, the
filesystem) are modelled by explicit parameters: the list of documents a
query returns, the HTTP status and payload of a reply, and boolean flags for
the steps that can raise.  Python exceptions are modelled with `Except`.
-/

namespace DlhubSdk

/-- The `dlhub` block of a search-result document, with the fields
`client.py` reads: `owner`, `name`, `shorthand_name`, `publication_date`. -/
structure DlhubBlock where
  owner : String
  name : String
  shorthand_name : String
  publication_date : Nat
  deriving DecidableEq

/-- A search-result document.  `client.py` only ever reads `r['dlhub']`. -/
structure Doc where
  dlhub : DlhubBlock
  deriving DecidableEq

/-- The query-information dictionary returned by `search(info=True)`;
`get_servables` reads `info['total_query_matches']`. -/
structure QueryInfo where
  total_query_matches : Nat
  deriving DecidableEq

/-- The Python exceptions raised by the embedded code paths. -/
inductive PyErr where
  /-- `ValueError(msg)` -/
  | valueError (msg : String)
  /-- `AttributeError(msg)` -/
  | attributeError (msg : String)
  /-- `NotImplementedError(msg)` -/
  | notImplementedError (msg : String)
  /-- `RuntimeError(msg)` -/
  | runtimeError (msg : String)
  /-- `Exception(r)` on a reply whose HTTP status is not 200 -/
  | remoteError (status : Nat)
  /-- jsonschema `ValidationError` from `validate_against_dlhub_schema` -/
  | validationError (doc_type : String)
  /-- an exception raised by `model.get_zip_file` -/
  | archiveError
  /-- an exception raised by the HTTP layer while posting -/
  | connectionError
  /-- `FileNotFoundError` from `os.unlink` on a missing path -/
  | fileNotFound
  /-- `TypeError`: a list subscripted with a string key (`res["dlhub"]`
  where `res` is the result list) -/
  | typeErrorListStrIndex
  /-- `TypeError`: item assignment on a tuple (`results[0] = ...` where
  `results` is the `(results, info)` tuple) -/
  | typeErrorTupleAssign
  /-- `TypeError`: a dict value compared with `<` against an int -/
  | typeErrorDictLtInt
  /-- `KeyError(k)` -/
  | keyError (k : String)
  deriving DecidableEq

/-- `SEARCH_LIMIT` from `mdf_toolbox.search_helper` (an external
collaborator, the Globus search page-size cap of 10000). -/
def SEARCH_LIMIT : Nat := 10000

/-! ## `DLHubClient.get_servables` (client.py lines 64-92) -/

/-- The sort order the `get_servables` query requests:
`dlhub.owner` ascending, then `dlhub.name` descending, then
`dlhub.publication_date` descending. -/
def queryLE (a b : Doc) : Prop :=
  a.dlhub.owner < b.dlhub.owner ∨
    (a.dlhub.owner = b.dlhub.owner ∧
      (b.dlhub.name < a.dlhub.name ∨
        (a.dlhub.name = b.dlhub.name ∧
          b.dlhub.publication_date ≤ a.dlhub.publication_date)))

instance (a b : Doc) : Decidable (queryLE a b) := by
  unfold queryLE; infer_instance

/-- The `only_latest_version` loop of `get_servables`: walk the result list
keeping the first occurrence of each `dlhub.shorthand_name`, with `seen`
the `names` set accumulated so far. -/
def dedupNames (seen : List String) : List Doc → List Doc
  | [] => []
  | r :: rest =>
    if r.dlhub.shorthand_name ∈ seen then dedupNames seen rest
    else r :: dedupNames (r.dlhub.shorthand_name :: seen) rest

/-- `DLHubClient.get_servables`: `results` and `info` stand for what the
sorted query returns.  Raises `RuntimeError` when the index reports more
hits than `SEARCH_LIMIT`; otherwise optionally keeps only the first
occurrence of each shorthand name. -/
def get_servables (only_latest_version : Bool) (results : List Doc)
    (info : QueryInfo) : Except PyErr (List Doc) :=
  if info.total_query_matches > SEARCH_LIMIT then
    Except.error (PyErr.runtimeError
      "DLHub contains more servables than we can return in one entry. DLHub SDK needs to be updated.")
  else if only_latest_version then
    Except.ok (dedupNames [] results)
  else
    Except.ok results

/-! ## `DLHubClient.describe_servable` (client.py lines 116-134) -/

/-- `DLHubClient.describe_servable`: `hits` stands for the documents
matching the `(owner, name)` query; `search(limit=1)` truncates them to at
most one.  Raises `AttributeError` when the query comes back empty,
otherwise returns `query[0]`. -/
def describe_servable (owner name : String) (hits : List Doc) :
    Except PyErr Doc :=
  match hits.take 1 with
  | [] =>
    Except.error (PyErr.attributeError
      ("No such servable: " ++ owner ++ "/" ++ name))
  | q :: _ => Except.ok q

/-! ## `DLHubClient.run` (client.py lines 151-182) -/

/-- The reply of the DLHub service to a `run` POST. -/
structure RunReply where
  http_status : Nat
  data : String
  deriving DecidableEq

/-- The request body `run` builds before posting. -/
inductive RunPayload (α : Type) where
  /-- `{'python': jsonpickle.encode(inputs)}` -/
  | pythonPickle (inputs : α)
  /-- `{'data': inputs}` -/
  | jsonData (inputs : α)

/-- `DLHubClient.run`: returns the outcome together with whether a POST to
`servables/{name}/run` was performed.  `reply` stands for what the service
would answer if the POST happens. -/
def run {α : Type} (name : String) (inputs : α) (input_type : String)
    (reply : RunReply) : Except PyErr String × Bool :=
  let send : RunPayload α → Except PyErr String × Bool := fun _ =>
    if reply.http_status ≠ 200 then
      (Except.error (PyErr.remoteError reply.http_status), true)
    else
      (Except.ok reply.data, true)
  if input_type = "python" then
    send (RunPayload.pythonPickle inputs)
  else if input_type = "json" then
    send (RunPayload.jsonData inputs)
  else if input_type = "files" then
    (Except.error (PyErr.notImplementedError
      "Files support is not yet implemented"), false)
  else
    (Except.error (PyErr.valueError
      ("Input type not recognized: " ++ input_type)), false)

/-! ## `DLHubClient.publish_servable` (client.py lines 184-234) -/

/-- The environment of one `publish_servable` call: which fallible steps
succeed, and the reply of the service when the POST completes. -/
structure PublishEnv where
  /-- `model.to_dict(simplify_paths=True)` succeeds -/
  toDictOk : Bool
  /-- `validate_against_dlhub_schema(metadata, 'servable')` succeeds -/
  validateOk : Bool
  /-- `model.get_zip_file(zip_filename)` succeeds (the archive is created) -/
  zipOk : Bool
  /-- the `requests.post` call itself completes without raising -/
  postOk : Bool
  /-- `reply.status_code` when the POST completes -/
  status_code : Nat
  /-- `reply.json()['task_id']` -/
  task_id : String
  deriving DecidableEq

/-- `DLHubClient.publish_servable`: returns the outcome together with
whether the temporary zip archive still exists when the call returns or
propagates.  `mkstemp` creates the temporary file and it is unlinked at
once, so the archive exists only between a successful `get_zip_file` and
the `finally` block's `os.unlink`; an exception raised by the `finally`
block's `os.unlink` replaces the in-flight exception, as in Python. -/
def publish_servable (env : PublishEnv) : Except PyErr String × Bool :=
  if !env.toDictOk then
    (Except.error (PyErr.valueError "description is incomplete"), false)
  else if !env.validateOk then
    (Except.error (PyErr.validationError "servable"), false)
  else
    -- inside the try block; the pair tracks (outcome, archive exists)
    let body : Except PyErr String × Bool :=
      if !env.zipOk then (Except.error PyErr.archiveError, false)
      else if !env.postOk then (Except.error PyErr.connectionError, true)
      else if env.status_code ≠ 200 then
        (Except.error (PyErr.remoteError env.status_code), true)
      else (Except.ok env.task_id, true)
    -- the finally block: os.unlink(zip_filename)
    match body with
    | (res, true) => (res, false)
    | (_, false) => (Except.error PyErr.fileNotFound, false)

/-! ## `DLHubFuture` (futures.py lines 12-46) -/

/-- The callables a thread started by `DLHubFuture.__init__` could run. -/
inductive ThreadTarget where
  /-- the polling loop `DLHubFuture._ping_server` -/
  | pingServer
  /-- the class constructor `DLHubClient` -/
  | dlhubClientCtor
  deriving DecidableEq

/-- The target of the checker thread in `DLHubFuture.__init__`
(futures.py line 25): the source reads
`Thread(target=DLHubClient, args=(self,))`, so the spawned thread calls the
`DLHubClient` constructor with the future as its first argument; it does
not run `self._ping_server`. -/
def checkerThreadTarget : ThreadTarget := ThreadTarget.dlhubClientCtor

/-! ## Concrete sample documents, used to instantiate the theorems -/

/-- Version of `alice/net` published at date 5. -/
def docA : Doc := ⟨⟨"alice", "net", "alice/net", 5⟩⟩

/-- Version of `alice/net` published at date 3. -/
def docB : Doc := ⟨⟨"alice", "net", "alice/net", 3⟩⟩

/-! ## `DLHubClient.search_by_servable` (client.py lines 252-302) -/

/-- The `ident` key the `only_latest` loop builds:
`res["dlhub"]["owner"] + res["dlhub"]["name"]`. -/
def keyOf (d : Doc) : String := d.dlhub.owner ++ d.dlhub.name

/-- The Python dict `latest_res`, as an insertion-ordered association
list. -/
abbrev ResMap := List (String × Doc)

/-- Python `latest_res.get(k, default)` without the default: `none` when
the key is absent. -/
def pyDictGet : ResMap → String → Option Doc
  | [], _ => none
  | p :: rest, k => if p.1 = k then some p.2 else pyDictGet rest k

/-- Python `latest_res[k] = v`: overwrite the entry holding `k` in place,
or append a new entry. -/
def pyDictSet : ResMap → String → Doc → ResMap
  | [], k, v => [(k, v)]
  | p :: rest, k, v =>
    if p.1 = k then (k, v) :: rest else p :: pyDictSet rest k v

/-- One element of the Python iteration `for res in results`: a result
document when `results` is the plain result list, or — when
`search(info=True)` returned the `(results, info)` tuple — the result list
itself followed by the info dict. -/
inductive ResElem where
  /-- a result document -/
  | doc (d : Doc)
  /-- the result list (first component of the tuple) -/
  | docList (l : List Doc)
  /-- the query-information dict (second component of the tuple) -/
  | qinfo (q : QueryInfo)
  deriving DecidableEq

/-- What `for res in results` iterates over, depending on `info`. -/
def resultsSeq (info : Bool) (hits : List Doc) (qi : QueryInfo) :
    List ResElem :=
  if info then [ResElem.docList hits, ResElem.qinfo qi]
  else hits.map ResElem.doc

/-- The `only_latest` filter loop of `search_by_servable`.  For each
element: `res["dlhub"]` raises `TypeError` on a list and `KeyError` on the
info dict; on a document the loop builds `ident`, evaluates
`latest_res.get("ident", -1) < res["dlhub"]["publication_date"]` — the
literal key `"ident"`, with a `TypeError` if a stored document were
compared against the int default — and stores the document when the guard
holds. -/
def latestLoop (m : ResMap) : List ResElem → Except PyErr ResMap
  | [] => Except.ok m
  | ResElem.docList _ :: _ => Except.error PyErr.typeErrorListStrIndex
  | ResElem.qinfo _ :: _ => Except.error (PyErr.keyError "dlhub")
  | ResElem.doc d :: rest =>
    let ident := keyOf d
    match pyDictGet m "ident" with
    | some _ => Except.error PyErr.typeErrorDictLtInt
    | none =>
      if (-1 : Int) < (d.dlhub.publication_date : Int) then
        latestLoop (pyDictSet m ident d) rest
      else
        latestLoop m rest

/-- Python falsiness of an optional string argument (`None` or `''`). -/
def argFalsy : Option String → Bool
  | none => true
  | some s => s.isEmpty

/-- Python falsiness of the optional `version` int (`None` or `0`). -/
def verFalsy : Option Int → Bool
  | none => true
  | some v => v == 0

/-- What `search_by_servable` returns when it returns: the result list, or
the `(results, info)` pair when `info=True`. -/
inductive SearchOut where
  /-- a plain result list -/
  | plain (l : List Doc)
  /-- the `(results, info)` tuple -/
  | withInfo (l : List Doc) (q : QueryInfo)
  deriving DecidableEq

/-- `DLHubClient.search_by_servable`: `hits` and `qi` stand for what the
query would return.  The second component records whether the search query
was executed.  Raises `ValueError` when `servable_name`, `owner` and
`version` are all falsy; with `only_latest=True` runs the filter loop over
the search result (a list, or a `(results, info)` tuple when `info=True`),
and afterwards, when `info=True`, performs the tuple item assignment
`results[0] = ...`, which raises `TypeError` on a tuple. -/
def search_by_servable (servable_name owner : Option String)
    (version : Option Int) (only_latest : Bool) (info : Bool)
    (hits : List Doc) (qi : QueryInfo) : Except PyErr SearchOut × Bool :=
  if argFalsy servable_name && argFalsy owner && verFalsy version then
    (Except.error (PyErr.valueError
      "One of 'servable_name', 'owner', or 'publication_date' is required."),
      false)
  else
    if only_latest then
      match latestLoop [] (resultsSeq info hits qi) with
      | Except.error e => (Except.error e, true)
      | Except.ok m =>
        if info then
          (Except.error PyErr.typeErrorTupleAssign, true)
        else
          (Except.ok (SearchOut.plain (m.map Prod.snd)), true)
    else
      if info then (Except.ok (SearchOut.withInfo hits qi), true)
      else (Except.ok (SearchOut.plain hits), true)

/-- The filter loop restricted to documents, with the always-true guard
dropped: what `latestLoop` computes on a plain result list. -/
def loopPure (m : ResMap) : List Doc → ResMap
  | [] => m
  | d :: rest => loopPure (pyDictSet m (keyOf d) d) rest

/-- Every entry of the map binds a key to a document with that key. -/
def goodMap (m : ResMap) : Prop := ∀ p ∈ m, p.1 = keyOf p.2

/-- What the query's sort order gives two same-shorthand entries: the
earlier one has the later (or equal) publication date. -/
def sameNameLE (a b : Doc) : Prop :=
  a.dlhub.shorthand_name = b.dlhub.shorthand_name →
    b.dlhub.publication_date ≤ a.dlhub.publication_date

/-! ## The static-method description model

The file defining `PythonStaticMethodModel`
(`dlhub_sdk/models/servables/python.py`) is not part of the repository
files available here; only its tests are.  The definitions below are
therefore modelled from the specification's description of the metadata
model (setters that mutate and return the model, `to_dict` failing until
inputs and outputs are set, the static-method subclass recording the
function's module, name and autobatch flag, and the static-method shim
identifier). -/

/-- Modelled from the spec: a typed argument descriptor (`type`,
`description`, and type-specific fields such as `shape` for tensors or
`item_type` for sequences) built by `compose_argument_block`, whose
definition is not among the repository files here. -/
structure ArgDescriptor where
  type : String
  description : String
  shape : Option (List (Option Nat))
  item_type : Option String
  deriving DecidableEq

/-- Modelled from the spec: the `method_details` block a Python
static-method variant records — the function's module and name and an
"autobatch" flag (`dlhub_sdk/models/servables/python.py` is not among the
repository files here). -/
structure MethodDetailsBlock where
  module : String
  method_name : String
  autobatch : Bool
  deriving DecidableEq

/-- Modelled from the spec: the in-memory state of a
`PythonStaticMethodModel` description being built incrementally. -/
structure StaticMethodModel where
  title : Option String
  name : Option String
  input : Option ArgDescriptor
  output : Option ArgDescriptor
  details : MethodDetailsBlock
  deriving DecidableEq

/-- Modelled from the spec:
`PythonStaticMethodModel.from_function_pointer(f, autobatch)` records the
function's module and name and the autobatch flag; inputs and outputs
start unset. -/
def from_function_pointer (module method_name : String) (autobatch : Bool) :
    StaticMethodModel :=
  { title := none, name := none, input := none, output := none,
    details := { module := module, method_name := method_name,
                 autobatch := autobatch } }

/-- Modelled from the spec: the fluent `set_title` setter returns the
model itself. -/
def StaticMethodModel.set_title (m : StaticMethodModel) (t : String) :
    StaticMethodModel :=
  { m with title := some t }

/-- Modelled from the spec: the fluent `set_name` setter returns the model
itself. -/
def StaticMethodModel.set_name (m : StaticMethodModel) (n : String) :
    StaticMethodModel :=
  { m with name := some n }

/-- Modelled from the spec: `set_inputs(type, description, shape=...,
item_type=...)` stores the input argument descriptor. -/
def StaticMethodModel.set_inputs (m : StaticMethodModel)
    (t desc : String) (shape : Option (List (Option Nat)))
    (item_type : Option String) : StaticMethodModel :=
  { m with input := some { type := t, description := desc, shape := shape,
                           item_type := item_type } }

/-- Modelled from the spec: `set_outputs(type, description, ...)` stores
the output argument descriptor. -/
def StaticMethodModel.set_outputs (m : StaticMethodModel)
    (t desc : String) (shape : Option (List (Option Nat)))
    (item_type : Option String) : StaticMethodModel :=
  { m with output := some { type := t, description := desc, shape := shape,
                            item_type := item_type } }

/-- The `run` method block of the serialized `servable` section:
`{input, output, parameters, method_details}`. -/
structure MethodBlock where
  input : ArgDescriptor
  output : ArgDescriptor
  parameters : List (String × String)
  details : MethodDetailsBlock
  deriving DecidableEq

/-- The `servable` section of the serialized description: the shim
identifier and the single `run` method. -/
structure ServableSection where
  shim : String
  run : MethodBlock
  deriving DecidableEq

/-- The Python static-method shim identifier,
`python.PythonStaticMethodServable`. -/
def staticMethodShim : String := "python.PythonStaticMethodServable"

/-- Modelled from the spec: `to_dict()` fails with a `ValueError` when the
required input and output types have not been set; otherwise it returns
the finalized mapping, whose `servable` section carries the static-method
shim and the recorded `method_details`
(`dlhub_sdk/models/servables/python.py` is not among the repository files
here). -/
def StaticMethodModel.to_dict (m : StaticMethodModel) :
    Except PyErr ServableSection :=
  match m.input, m.output with
  | some i, some o =>
    Except.ok { shim := staticMethodShim,
                run := { input := i, output := o, parameters := [],
                         details := m.details } }
  | _, _ => Except.error (PyErr.valueError "Inputs and outputs must be set")

end DlhubSdk

namespace DlhubSdk

/-! ## Lemmas about `dedupNames` (the `only_latest_version` loop) -/

theorem queryLE_date_le {a b : Doc} (h : queryLE a b)
    (how : a.dlhub.owner = b.dlhub.owner) (hn : a.dlhub.name = b.dlhub.name) :
    b.dlhub.publication_date ≤ a.dlhub.publication_date := by
  rcases h with h | ⟨_, h | ⟨_, h⟩⟩
  · rw [how] at h; exact absurd h (lt_irrefl _)
  · rw [hn] at h; exact absurd h (lt_irrefl _)
  · exact h

theorem mem_of_mem_dedupNames {seen : List String} {l : List Doc} {r : Doc}
    (h : r ∈ dedupNames seen l) : r ∈ l := by
  induction l generalizing seen with
  | nil => simp [dedupNames] at h
  | cons a rest ih =>
    by_cases ha : a.dlhub.shorthand_name ∈ seen
    · simp only [dedupNames, if_pos ha] at h
      exact List.mem_cons_of_mem _ (ih h)
    · simp only [dedupNames, if_neg ha] at h
      rcases List.mem_cons.mp h with rfl | h
      · exact List.mem_cons_self _ _
      · exact List.mem_cons_of_mem _ (ih h)

theorem mem_dedupNames_not_seen {seen : List String} {l : List Doc} {r : Doc}
    (h : r ∈ dedupNames seen l) : r.dlhub.shorthand_name ∉ seen := by
  induction l generalizing seen with
  | nil => simp [dedupNames] at h
  | cons a rest ih =>
    by_cases ha : a.dlhub.shorthand_name ∈ seen
    · exact ih (by simpa only [dedupNames, if_pos ha] using h)
    · simp only [dedupNames, if_neg ha] at h
      rcases List.mem_cons.mp h with rfl | h
      · exact ha
      · have hr := ih h
        exact fun hs => hr (List.mem_cons_of_mem _ hs)

theorem dedupNames_pairwise_ne (seen : List String) (l : List Doc) :
    (dedupNames seen l).Pairwise
      (fun a b => a.dlhub.shorthand_name ≠ b.dlhub.shorthand_name) := by
  induction l generalizing seen with
  | nil => simp [dedupNames]
  | cons a rest ih =>
    by_cases ha : a.dlhub.shorthand_name ∈ seen
    · simpa only [dedupNames, if_pos ha] using ih seen
    · simp only [dedupNames, if_neg ha]
      refine List.pairwise_cons.mpr ⟨?_, ih _⟩
      intro b hb he
      exact mem_dedupNames_not_seen hb (by rw [← he]; exact List.mem_cons_self _ _)

theorem dedupNames_max_date {l : List Doc} (hs : l.Pairwise sameNameLE) :
    ∀ seen, ∀ r ∈ dedupNames seen l, ∀ s ∈ l,
      s.dlhub.shorthand_name = r.dlhub.shorthand_name →
      s.dlhub.publication_date ≤ r.dlhub.publication_date := by
  induction l with
  | nil => intro seen r hr; simp [dedupNames] at hr
  | cons a rest ih =>
    have ha' := (List.pairwise_cons.mp hs).1
    have hrest := (List.pairwise_cons.mp hs).2
    intro seen r hr s hsmem hsh
    by_cases hain : a.dlhub.shorthand_name ∈ seen
    · simp only [dedupNames, if_pos hain] at hr
      rcases List.mem_cons.mp hsmem with rfl | hs'
      · exact absurd (hsh ▸ hain) (mem_dedupNames_not_seen hr)
      · exact ih hrest seen r hr s hs' hsh
    · simp only [dedupNames, if_neg hain] at hr
      rcases List.mem_cons.mp hr with rfl | hr
      · rcases List.mem_cons.mp hsmem with rfl | hs'
        · exact le_refl _
        · exact ha' s hs' hsh.symm
      · rcases List.mem_cons.mp hsmem with rfl | hs'
        · refine absurd ?_ (mem_dedupNames_not_seen hr)
          rw [← hsh]; exact List.mem_cons_self _ _
        · exact ih hrest _ r hr s hs' hsh

/-- Claim C5: `run(name, inputs, input_type='files')` fails immediately
with `NotImplementedError` and performs no remote call: no POST to the run
endpoint occurs on that branch, whatever the service would have replied. -/
theorem C5_run_files_not_implemented {α : Type} (name : String) (inputs : α)
    (reply : RunReply) :
    run name inputs "files" reply =
      (Except.error (PyErr.notImplementedError
        "Files support is not yet implemented"), false) := by
  rfl

/-- Claim C6: `describe_servable(owner, name)` fails with an
`AttributeError` naming the owner/name pair when the query hits zero
documents, and returns the first match when at least one document
hits. -/
theorem C6_describe_servable_not_found (owner name : String)
    (hits : List Doc) :
    (hits = [] →
      describe_servable owner name hits =
        Except.error (PyErr.attributeError
          ("No such servable: " ++ owner ++ "/" ++ name))) ∧
    (∀ d rest, hits = d :: rest →
      describe_servable owner name hits = Except.ok d) := by
  constructor
  · intro h; subst h; rfl
  · intro d rest h; subst h; rfl

/-- Claim C3: `publish_servable` never leaves the temporary zip archive
behind — in every outcome the archive does not exist when the call returns
or propagates — and there is no partial success: the call returns a task id
exactly when the description serializes, validates, the archive is built,
the POST completes and the service replies with HTTP 200. -/
theorem C3_publish_servable_cleanup (env : PublishEnv) :
    (publish_servable env).2 = false ∧
    ((publish_servable env).1 = Except.ok env.task_id ↔
      (env.toDictOk && env.validateOk && env.zipOk && env.postOk &&
        decide (env.status_code = 200)) = true) := by
  unfold publish_servable
  rcases env with ⟨td, v, z, p, sc, t⟩
  cases td <;> cases v <;> cases z <;> cases p <;> simp <;>
    by_cases h : sc = 200 <;> simp [h]

/-- Claim C2 (code bug): the thread started by `DLHubFuture.__init__` is
`Thread(target=DLHubClient, args=(self,))` — its target is the
`DLHubClient` constructor, not the `_ping_server` polling loop, so the
sleep-and-poll loop the comment above that line announces is never run. -/
theorem C2_checker_thread_wrong_target :
    checkerThreadTarget ≠ ThreadTarget.pingServer := by
  decide

/-- Claim C1: on a result list carrying the query's sort order
(`dlhub.owner` ascending, `dlhub.name` descending,
`dlhub.publication_date` descending), with shorthand names consistent with
the owner/name fields and the match count within the page limit,
`get_servables(only_latest_version=True)` returns at most one entry per
unique shorthand name, and each returned entry is an entry of the result
list whose publication date is the most recent among entries sharing its
shorthand name. -/
theorem C1_get_servables_only_latest (results : List Doc) (info : QueryInfo)
    (hsort : results.Pairwise queryLE)
    (hcons : ∀ a ∈ results, ∀ b ∈ results,
      a.dlhub.shorthand_name = b.dlhub.shorthand_name →
      a.dlhub.owner = b.dlhub.owner ∧ a.dlhub.name = b.dlhub.name)
    (hlim : info.total_query_matches ≤ SEARCH_LIMIT) :
    ∃ out, get_servables true results info = Except.ok out ∧
      out.Pairwise
        (fun a b => a.dlhub.shorthand_name ≠ b.dlhub.shorthand_name) ∧
      ∀ r ∈ out, r ∈ results ∧
        ∀ s ∈ results, s.dlhub.shorthand_name = r.dlhub.shorthand_name →
          s.dlhub.publication_date ≤ r.dlhub.publication_date := by
  refine ⟨dedupNames [] results, ?_, ?_, ?_⟩
  · simp [get_servables, Nat.not_lt.mpr hlim]
  · exact dedupNames_pairwise_ne [] results
  · intro r hr
    refine ⟨mem_of_mem_dedupNames hr, ?_⟩
    have hsame : results.Pairwise sameNameLE := by
      refine hsort.imp_of_mem ?_
      intro a b ha hb hab hsh
      exact queryLE_date_le hab (hcons a ha b hb hsh).1 (hcons a ha b hb hsh).2
    exact dedupNames_max_date hsame [] r hr

/-- Witness for C1 at a concrete sorted two-version result list. -/
theorem C1_witness :
    ∃ out, get_servables true [docA, docB] ⟨2⟩ = Except.ok out ∧
      out.Pairwise
        (fun a b => a.dlhub.shorthand_name ≠ b.dlhub.shorthand_name) ∧
      ∀ r ∈ out, r ∈ [docA, docB] ∧
        ∀ s ∈ [docA, docB],
          s.dlhub.shorthand_name = r.dlhub.shorthand_name →
          s.dlhub.publication_date ≤ r.dlhub.publication_date :=
  C1_get_servables_only_latest [docA, docB] ⟨2⟩
    (by simp [List.pairwise_cons, queryLE, docA, docB]) (by decide) (by decide)

/-! ## Lemmas about the `latest_res` dict of `search_by_servable` -/

theorem pyDictGet_set_self (m : ResMap) (k : String) (v : Doc) :
    pyDictGet (pyDictSet m k v) k = some v := by
  induction m with
  | nil => simp [pyDictSet, pyDictGet]
  | cons p rest ih =>
    by_cases h : p.1 = k
    · simp [pyDictSet, h, pyDictGet]
    · simp [pyDictSet, h, pyDictGet, ih]

theorem pyDictGet_set_ne (m : ResMap) (k k' : String) (v : Doc)
    (h : k' ≠ k) : pyDictGet (pyDictSet m k v) k' = pyDictGet m k' := by
  induction m with
  | nil => simp [pyDictSet, pyDictGet, Ne.symm h]
  | cons p rest ih =>
    by_cases hp : p.1 = k
    · simp [pyDictSet, hp, pyDictGet, Ne.symm h]
    · by_cases hp' : p.1 = k'
      · simp [pyDictSet, hp, pyDictGet, hp', h]
      · simp [pyDictSet, hp, pyDictGet, hp', ih]

theorem pyDictGet_mem_values {m : ResMap} {k : String} {v : Doc}
    (h : pyDictGet m k = some v) : v ∈ m.map Prod.snd := by
  induction m with
  | nil => simp [pyDictGet] at h
  | cons p rest ih =>
    by_cases hp : p.1 = k
    · simp only [pyDictGet, if_pos hp, Option.some.injEq] at h
      simp [← h]
    · simp only [pyDictGet, if_neg hp] at h
      simp [ih h]

theorem pyDictGet_mem_keys {m : ResMap} {k : String} {v : Doc}
    (h : pyDictGet m k = some v) : k ∈ m.map Prod.fst := by
  induction m with
  | nil => simp [pyDictGet] at h
  | cons p rest ih =>
    by_cases hp : p.1 = k
    · simp [hp]
    · simp only [pyDictGet, if_neg hp] at h
      simp [ih h]

theorem mem_keys_pyDictSet {m : ResMap} {k : String} {v : Doc} {x : String}
    (h : x ∈ (pyDictSet m k v).map Prod.fst) :
    x ∈ m.map Prod.fst ∨ x = k := by
  induction m with
  | nil => simp [pyDictSet] at h; simp [h]
  | cons q rest ih =>
    by_cases hq : q.1 = k
    · simp only [pyDictSet, if_pos hq, List.map_cons, List.mem_cons] at h
      rcases h with rfl | h
      · exact Or.inr rfl
      · exact Or.inl (by simp [h])
    · simp only [pyDictSet, if_neg hq, List.map_cons, List.mem_cons] at h
      rcases h with rfl | h
      · exact Or.inl (by simp)
      · rcases ih h with h | h
        · exact Or.inl (by simp [h])
        · exact Or.inr h

theorem nodupKeys_pyDictSet {m : ResMap} (k : String) (v : Doc)
    (h : (m.map Prod.fst).Nodup) :
    ((pyDictSet m k v).map Prod.fst).Nodup := by
  induction m with
  | nil => simp [pyDictSet]
  | cons q rest ih =>
    rw [List.map_cons] at h
    rcases List.nodup_cons.mp h with ⟨hq1, hrest⟩
    by_cases hq : q.1 = k
    · simp only [pyDictSet, if_pos hq, List.map_cons]
      exact List.nodup_cons.mpr ⟨by rw [← hq] at *; exact hq1, hrest⟩
    · simp only [pyDictSet, if_neg hq, List.map_cons]
      refine List.nodup_cons.mpr ⟨?_, ih hrest⟩
      intro hmem
      rcases mem_keys_pyDictSet hmem with hmem | hmem
      · exact hq1 hmem
      · exact hq hmem

theorem goodMap_pyDictSet {m : ResMap} {d : Doc} (h : goodMap m) :
    goodMap (pyDictSet m (keyOf d) d) := by
  induction m with
  | nil =>
    intro p hp
    simp only [pyDictSet, List.mem_singleton] at hp
    simp [hp]
  | cons q rest ih =>
    intro p hp
    by_cases hq : q.1 = keyOf d
    · simp only [pyDictSet, if_pos hq] at hp
      rcases List.mem_cons.mp hp with rfl | hp
      · rfl
      · exact h p (List.mem_cons_of_mem _ hp)
    · simp only [pyDictSet, if_neg hq] at hp
      rcases List.mem_cons.mp hp with rfl | hp
      · exact h p (List.mem_cons_self _ _)
      · exact ih (fun r hr => h r (List.mem_cons_of_mem _ hr)) p hp

theorem get_of_mem_values {m : ResMap} (hn : (m.map Prod.fst).Nodup)
    (hg : goodMap m) {v : Doc} (hv : v ∈ m.map Prod.snd) :
    pyDictGet m (keyOf v) = some v := by
  induction m with
  | nil => simp at hv
  | cons p rest ih =>
    rw [List.map_cons] at hn
    rcases List.nodup_cons.mp hn with ⟨hp1, hrest⟩
    simp only [List.map_cons, List.mem_cons] at hv
    rcases hv with hv | hv
    · have hk : p.1 = keyOf v := by
        rw [hv]; exact hg p (List.mem_cons_self _ _)
      rw [pyDictGet, if_pos hk, hv]
    · have hget := ih hrest (fun r hr => hg r (List.mem_cons_of_mem _ hr)) hv
      have hne : p.1 ≠ keyOf v := fun he => hp1 (he ▸ pyDictGet_mem_keys hget)
      rw [pyDictGet, if_neg hne, hget]

theorem goodMap_loopPure (l : List Doc) :
    ∀ m, goodMap m → goodMap (loopPure m l) := by
  induction l with
  | nil => intro m hm; exact hm
  | cons d rest ih => intro m hm; exact ih _ (goodMap_pyDictSet hm)

theorem nodupKeys_loopPure (l : List Doc) :
    ∀ m, (m.map Prod.fst).Nodup → ((loopPure m l).map Prod.fst).Nodup := by
  induction l with
  | nil => intro m hm; exact hm
  | cons d rest ih => intro m hm; exact ih _ (nodupKeys_pyDictSet _ _ hm)

theorem latestLoop_eq_loopPure (l : List Doc) :
    ∀ m, (∀ d ∈ l, keyOf d ≠ "ident") → pyDictGet m "ident" = none →
      latestLoop m (l.map ResElem.doc) = Except.ok (loopPure m l) := by
  induction l with
  | nil => intro m _ _; rfl
  | cons d rest ih =>
    intro m hl hm
    have hguard : (-1 : Int) < (d.dlhub.publication_date : Int) := by omega
    simp only [List.map_cons, latestLoop, hm, if_pos hguard, loopPure]
    exact ih _ (fun x hx => hl x (List.mem_cons_of_mem _ hx))
      (by
        rw [pyDictGet_set_ne]
        · exact hm
        · exact Ne.symm (hl d (List.mem_cons_self _ _)))

theorem latestLoop_error_not_valueError {l : List ResElem} :
    ∀ {m : ResMap} {e : PyErr}, latestLoop m l = Except.error e →
      ∀ msg, e ≠ PyErr.valueError msg := by
  induction l with
  | nil => intro m e h; simp [latestLoop] at h
  | cons x rest ih =>
    intro m e h
    cases x with
    | doc d =>
      rw [latestLoop] at h
      split at h
      · simp only [Except.error.injEq] at h
        subst h
        intro msg hmsg
        exact PyErr.noConfusion hmsg
      · split at h
        · exact ih h
        · exact ih h
    | docList l' =>
      rw [latestLoop] at h
      simp only [Except.error.injEq] at h
      subst h
      intro msg hmsg
      exact PyErr.noConfusion hmsg
    | qinfo q =>
      rw [latestLoop] at h
      simp only [Except.error.injEq] at h
      subst h
      intro msg hmsg
      exact PyErr.noConfusion hmsg

theorem pyDictGet_loopPure (l : List Doc) :
    ∀ (m : ResMap) (k : String),
      pyDictGet (loopPure m l) k =
        match (l.filter (fun s => keyOf s == k)).getLast? with
        | some d => some d
        | none => pyDictGet m k := by
  induction l with
  | nil => intro m k; rfl
  | cons d rest ih =>
    intro m k
    rw [loopPure, ih]
    by_cases hk : keyOf d = k
    · rw [List.filter_cons_of_pos (by simp [hk])]
      cases hfl : (rest.filter (fun s => keyOf s == k)).getLast? with
      | none =>
        rw [List.getLast?_eq_none_iff] at hfl
        rw [hfl]
        simp [← hk, pyDictGet_set_self]
      | some x =>
        obtain ⟨y, ys, hys⟩ :
            ∃ y ys, rest.filter (fun s => keyOf s == k) = y :: ys := by
          cases h' : rest.filter (fun s => keyOf s == k) with
          | nil => rw [h'] at hfl; simp at hfl
          | cons y ys => exact ⟨y, ys, rfl⟩
        rw [hys, List.getLast?_cons_cons, ← hys, hfl]
    · rw [List.filter_cons_of_neg (by simp [hk])]
      cases hfl : (rest.filter (fun s => keyOf s == k)).getLast? with
      | none => simp [pyDictGet_set_ne _ _ _ _ (Ne.symm hk)]
      | some x => simp

/-- Claim C7: `search_by_servable` fails with `ValueError` exactly when
`servable_name`, `owner` and `version` are all falsy; when at least one is
provided the precondition check passes and the search query is
executed. -/
theorem C7_search_by_servable_precondition (sn ow : Option String)
    (ver : Option Int) (ol inf : Bool) (hits : List Doc) (qi : QueryInfo) :
    ((search_by_servable sn ow ver ol inf hits qi).1 =
        Except.error (PyErr.valueError
          "One of 'servable_name', 'owner', or 'publication_date' is required.") ↔
      (argFalsy sn && argFalsy ow && verFalsy ver) = true) ∧
    ((argFalsy sn && argFalsy ow && verFalsy ver) = false →
      (search_by_servable sn ow ver ol inf hits qi).2 = true) := by
  unfold search_by_servable
  by_cases hf : (argFalsy sn && argFalsy ow && verFalsy ver) = true
  · simp [hf]
  · have hf' : (argFalsy sn && argFalsy ow && verFalsy ver) = false := by
      simpa using hf
    cases ol with
    | false => cases inf <;> simp [hf']
    | true =>
      cases hlat : latestLoop [] (resultsSeq inf hits qi) with
      | error e =>
        have hne := latestLoop_error_not_valueError hlat
        cases inf <;> simp [hf', hlat] <;>
          exact fun hc => hne _ hc
      | ok m => cases inf <;> simp [hf', hlat]

/-- Witness for C7 with only the owner provided and with nothing
provided. -/
theorem C7_witness :
    (search_by_servable none (some "alice") none true false [] ⟨0⟩).2 =
      true ∧
    (search_by_servable none none none true false [] ⟨0⟩).1 =
      Except.error (PyErr.valueError
        "One of 'servable_name', 'owner', or 'publication_date' is required.") :=
  ⟨(C7_search_by_servable_precondition none (some "alice") none
      true false [] ⟨0⟩).2 (by decide),
    (C7_search_by_servable_precondition none none none
      true false [] ⟨0⟩).1.mpr (by decide)⟩

/-- Claim C4: with `only_latest=True` and `info=False`, for each
owner-plus-name key the filter loop keeps the result that appears last in
the search-result order: the `latest_res.get("ident", -1)` guard compares
the never-stored literal key `"ident"`'s default `-1` against a
non-negative publication date, so every later occurrence overwrites the
earlier one. -/
theorem C4_search_only_latest_keeps_last (sn ow : Option String)
    (ver : Option Int) (hits : List Doc) (qi : QueryInfo)
    (hargs : (argFalsy sn && argFalsy ow && verFalsy ver) = false)
    (hident : ∀ d ∈ hits, keyOf d ≠ "ident") :
    ∃ out, search_by_servable sn ow ver true false hits qi =
        (Except.ok (SearchOut.plain out), true) ∧
      (∀ r ∈ out,
        (hits.filter (fun s => keyOf s == keyOf r)).getLast? = some r) ∧
      (∀ d ∈ hits, ∃ r ∈ out, keyOf r = keyOf d) := by
  have hloop : latestLoop [] (resultsSeq false hits qi) =
      Except.ok (loopPure [] hits) :=
    latestLoop_eq_loopPure hits [] hident rfl
  refine ⟨(loopPure [] hits).map Prod.snd, ?_, ?_, ?_⟩
  · unfold search_by_servable
    rw [hargs]
    simp [hloop]
  · intro r hr
    have hget : pyDictGet (loopPure [] hits) (keyOf r) = some r :=
      get_of_mem_values (nodupKeys_loopPure hits [] (by simp))
        (goodMap_loopPure hits [] (by intro p hp; simp at hp)) hr
    have hchar := pyDictGet_loopPure hits [] (keyOf r)
    rw [hget] at hchar
    cases hfl : (hits.filter (fun s => keyOf s == keyOf r)).getLast? with
    | none => rw [hfl] at hchar; simp [pyDictGet] at hchar
    | some x =>
      rw [hfl] at hchar
      simp at hchar
      simp [hchar]
  · intro d hd
    have hmem : d ∈ hits.filter (fun s => keyOf s == keyOf d) :=
      List.mem_filter.mpr ⟨hd, by simp⟩
    obtain ⟨x, hx⟩ :
        ∃ x, (hits.filter (fun s => keyOf s == keyOf d)).getLast? = some x := by
      cases hfl : (hits.filter (fun s => keyOf s == keyOf d)).getLast? with
      | none =>
        rw [List.getLast?_eq_none_iff] at hfl
        rw [hfl] at hmem
        simp at hmem
      | some x => exact ⟨x, rfl⟩
    have hchar := pyDictGet_loopPure hits [] (keyOf d)
    rw [hx] at hchar
    refine ⟨x, pyDictGet_mem_values hchar, ?_⟩
    have hxf := List.mem_of_getLast?_eq_some hx
    have hbeq := (List.mem_filter.mp hxf).2
    exact eq_of_beq hbeq

/-- Witness for C4 at a two-version result list where the last occurrence
has the older publication date. -/
theorem C4_witness :
    ∃ out, search_by_servable (some "net") none none true false
        [docA, docB] ⟨2⟩ = (Except.ok (SearchOut.plain out), true) ∧
      (∀ r ∈ out,
        ([docA, docB].filter (fun s => keyOf s == keyOf r)).getLast? =
          some r) ∧
      (∀ d ∈ [docA, docB], ∃ r ∈ out, keyOf r = keyOf d) :=
  C4_search_only_latest_keeps_last (some "net") none none [docA, docB] ⟨2⟩
    (by decide) (by decide)

/-- Counterexample to C10 as stated: at a concrete query the `TypeError`
raised is the string-indexing of the result list inside the filter loop,
not the tuple item assignment, which is never reached. -/
theorem C10_counterexample :
    search_by_servable (some "net") none none true true [docA] ⟨1⟩ =
      (Except.error PyErr.typeErrorListStrIndex, true) ∧
    PyErr.typeErrorListStrIndex ≠ PyErr.typeErrorTupleAssign := by
  constructor
  · rfl
  · decide

/-- Claim C10 as amended: whenever the latest-version filter branch runs
with query metadata requested (`only_latest=True`, `info=True`, at least
one identifying argument provided), `search_by_servable` raises a
`TypeError`: the search call returns a `(results, info)` tuple, the filter
loop iterates over that tuple instead of the result documents, and
indexing its first element — the result list — with the string key
`"dlhub"` raises the `TypeError` before the `results[0] = ...` tuple item
assignment is reached. -/
theorem C10_search_info_latest_type_error (sn ow : Option String)
    (ver : Option Int) (hits : List Doc) (qi : QueryInfo)
    (hargs : (argFalsy sn && argFalsy ow && verFalsy ver) = false) :
    search_by_servable sn ow ver true true hits qi =
      (Except.error PyErr.typeErrorListStrIndex, true) := by
  unfold search_by_servable
  rw [hargs]
  simp [resultsSeq, latestLoop]

/-- Witness for the amended C10 at a concrete query. -/
theorem C10_witness :
    search_by_servable none (some "alice") none true true [] ⟨0⟩ =
      (Except.error PyErr.typeErrorListStrIndex, true) :=
  C10_search_info_latest_type_error none (some "alice") none [] ⟨0⟩
    (by decide)

/-- Claim C8: for every description model, `to_dict()` raises a
`ValueError` as long as the input and output types have not both been set,
and once both are set it succeeds and returns the finalized mapping. -/
theorem C8_to_dict_requires_inputs_outputs (m : StaticMethodModel) :
    ((m.input = none ∨ m.output = none) →
      StaticMethodModel.to_dict m =
        Except.error (PyErr.valueError "Inputs and outputs must be set")) ∧
    (∀ i o, m.input = some i → m.output = some o →
      StaticMethodModel.to_dict m =
        Except.ok { shim := staticMethodShim,
                    run := { input := i, output := o, parameters := [],
                             details := m.details } }) := by
  constructor
  · intro h
    rcases m with ⟨title, name, input, output, details⟩
    rcases h with h | h
    · simp only at h
      subst h
      cases output <;> rfl
    · simp only at h
      subst h
      cases input <;> rfl
  · intro i o hi ho
    rcases m with ⟨title, name, input, output, details⟩
    simp only at hi ho
    subst hi
    subst ho
    rfl

/-- Witness for C8: the model of the `test_function` test before and after
its inputs and outputs are defined. -/
theorem C8_witness :
    (StaticMethodModel.to_dict (from_function_pointer "math" "sqrt" true) =
      Except.error (PyErr.valueError "Inputs and outputs must be set")) ∧
    (StaticMethodModel.to_dict
        (((from_function_pointer "math" "sqrt" true).set_inputs
            "list" "List of numbers" none (some "float")).set_outputs
          "float" "Square root of the number" none none) =
      Except.ok
        { shim := staticMethodShim,
          run :=
            { input := { type := "list", description := "List of numbers",
                         shape := none, item_type := some "float" },
              output := { type := "float",
                          description := "Square root of the number",
                          shape := none, item_type := none },
              parameters := [],
              details := { module := "math", method_name := "sqrt",
                           autobatch := true } } }) :=
  ⟨(C8_to_dict_requires_inputs_outputs
      (from_function_pointer "math" "sqrt" true)).1 (Or.inl rfl),
    (C8_to_dict_requires_inputs_outputs
        (((from_function_pointer "math" "sqrt" true).set_inputs
            "list" "List of numbers" none (some "float")).set_outputs
          "float" "Square root of the number" none none)).2
      _ _ rfl rfl⟩

/-- Claim C9: the static-method model built from `math.sqrt` with a `list`
of `float` input and a `float` output serializes to a servable section
whose shim is `python.PythonStaticMethodServable` and whose run method's
`method_details` is `{module: 'math', method_name: 'sqrt',
autobatch: true}`. -/
theorem C9_sqrt_static_method_example :
    StaticMethodModel.to_dict
        (((((from_function_pointer "math" "sqrt" true).set_name
              "static_method").set_title "Python example").set_inputs
            "list" "List of numbers" none (some "float")).set_outputs
          "float" "Square root of the number" none none) =
      Except.ok
        { shim := "python.PythonStaticMethodServable",
          run :=
            { input := { type := "list", description := "List of numbers",
                         shape := none, item_type := some "float" },
              output := { type := "float",
                          description := "Square root of the number",
                          shape := none, item_type := none },
              parameters := [],
              details := { module := "math", method_name := "sqrt",
                           autobatch := true } } } := by
  rfl

end DlhubSdk
